import Mathlib

/-!
Shallow embedding of the `executor` Go package: the bounded capture sink
(`limitedBuffer` in `src/executor/executor.go`), the option/configuration
layer (`Run`), and the Unix process runner (`runCommand` in
`src/executor_unix.go`).  Bytes are modelled as `List Nat`; Go `int64`
counters are modelled as `Int` (no write here can approach 2^63, so wrap
is irrelevant); external effects (process start, the wait outcome, the
select race, the stream chunks) are an explicit oracle `ExecEnv`.
-/

namespace Executor

/-- Embeds `limitedBuffer` from `src/executor/executor.go`: `buf` is the
`bytes.Buffer` content, `limit`/`written` the `int64` fields, `truncated`
the flag. -/
structure limitedBuffer where
  buf : List Nat
  limit : Int
  written : Int
  truncated : Bool
deriving Repr, DecidableEq

/-- Embeds `newLimitedBuffer(limit)`. -/
def newLimitedBuffer (limit : Int) : limitedBuffer :=
  { buf := [], limit := limit, written := 0, truncated := false }

/-- Embeds `(*limitedBuffer).Write(p)`.  Mirrors the Go source line by
line: the unbounded branch (`limit <= 0`), the exhausted branch
(`remaining <= 0`), the overflow branch (`len(p) > remaining`, which
stores `p[:remaining]` and adds the *stored* count `n` to `written`),
and the fitting branch.  Returns the new state and the reported count
`len(p)`. -/
def limitedBuffer.Write (b : limitedBuffer) (p : List Nat) : limitedBuffer × Nat :=
  if b.limit ≤ 0 then
    ({ b with buf := b.buf ++ p, written := b.written + p.length }, p.length)
  else if b.limit - b.written ≤ 0 then
    ({ b with truncated := true }, p.length)
  else if (p.length : Int) > b.limit - b.written then
    ({ b with buf := b.buf ++ p.take (b.limit - b.written).toNat,
              written := b.written + ((p.take (b.limit - b.written).toNat).length : Int),
              truncated := true }, p.length)
  else
    ({ b with buf := b.buf ++ p, written := b.written + p.length }, p.length)

/-- Feeding a sequence of chunks into a sink, discarding the reported
counts (this is what the stream pump does over the life of a process). -/
def writeAll (b : limitedBuffer) (chunks : List (List Nat)) : limitedBuffer :=
  chunks.foldl (fun b p => (b.Write p).1) b

/-- The wait status of a terminated process, as exposed by
`syscall.WaitStatus` / `os.ProcessState`: a normal exit with a code, a
signal-caused termination with a signal number, or neither determinable. -/
inductive WaitStatus where
  | exited (code : Nat)
  | signaled (sig : Nat)
  | other
deriving Repr, DecidableEq

/-- Models the Go standard library `os.ProcessState.ExitCode()`: the exit
code of an exited process, or `-1` if the process was terminated by a
signal or its status is otherwise unavailable. -/
def processStateExitCode : WaitStatus → Int
  | .exited c => c
  | .signaled _ => -1
  | .other => -1

/-- The error values observable in a `Result.Err`: `emptyCommand` is the
`"executor: command cannot be empty"` error from `Run`; `startErr` is the
`fmt.Errorf("%w: %v", ErrStart, err)` wrap; `contextDone` is the
`fmt.Errorf("%w: %v", ErrContextDone, waitErr)` wrap of the underlying
wait result; `exitError` is a `*exec.ExitError` carrying a wait status;
`otherErr` is any other error from the wait layer. -/
inductive GoError where
  | emptyCommand
  | startErr (msg : String)
  | contextDone (inner : Option GoError)
  | exitError (ws : WaitStatus)
  | otherErr (msg : String)

/-- `errors.Is(err, ErrContextDone)`: true exactly for the cancellation
wrap produced in the `<-ctx.Done()` select branch. -/
def isCancellationClass : Option GoError → Bool
  | some (.contextDone _) => true
  | _ => false

/-- `errors.Is(err, ErrStart)`: true exactly for the start-failure wrap
produced when `execCmd.Start()` fails. -/
def isStartFailureClass : Option GoError → Bool
  | some (.startErr _) => true
  | _ => false

/-- The outcome of `execCmd.Wait()` as the goroutine delivers it into
`done`: the `execCmd.ProcessState` left behind (absent only when the wait
itself failed before observing a status) and the error value returned. -/
structure WaitOutcome where
  state : Option WaitStatus
  err : Option GoError

/-- Models the documented contract of `os/exec.Cmd.Wait` in the Go
standard library: a zero-status exit returns a nil error; a nonzero exit
or a signal-caused termination returns a `*exec.ExitError` carrying the
observed wait status. -/
def waitConsistent (w : WaitOutcome) : Prop :=
  (w.state = some (.exited 0) → w.err = none) ∧
  (∀ c, c ≠ 0 → w.state = some (.exited c) → w.err = some (.exitError (.exited c))) ∧
  (∀ s, w.state = some (.signaled s) → w.err = some (.exitError (.signaled s))) ∧
  (w.state = some .other → w.err = some (.exitError .other))

/-- Which arm of the `select` fires first: the context's done channel
(cancellation/deadline) or the `done` channel fed by the wait goroutine. -/
inductive RaceOutcome where
  | ctxFirst
  | doneFirst
deriving Repr, DecidableEq

/-- The oracle for one execution's external effects: whether
`execCmd.Start()` fails (and with what message), which `select` arm wins,
what `execCmd.Wait()` resolves to, the chunk sequences the process writes
to each stream's `io.MultiWriter`, and the observed wall-clock duration. -/
structure ExecEnv where
  startFails : Option String
  race : RaceOutcome
  wait : WaitOutcome
  stdoutData : List (List Nat)
  stderrData : List (List Nat)
  elapsed : Int

/-- Embeds `Config` from `src/executor/executor.go`.  The two external
writers are modelled by opaque identifiers (`0` is `io.Discard`); their
behaviour is outside the engine. -/
structure Config where
  cmd : String
  args : List String
  env : List String
  dir : String
  stdout : Nat
  stderr : Nat
  credential : Option (Nat × Nat)
  maxOutput : Int
deriving Repr, DecidableEq

/-- The recognized configuration mutations (`Option` values built by
`WithArgs`, `WithEnv`, `WithDir`, `WithStdout`, `WithStderr`,
`WithCredential`, `WithMaxOutput`). -/
inductive Opt where
  | withArgs (args : List String)
  | withEnv (env : List String)
  | withDir (dir : String)
  | withStdout (w : Nat)
  | withStderr (w : Nat)
  | withCredential (uid gid : Nat)
  | withMaxOutput (n : Int)
deriving Repr, DecidableEq

/-- Applying one mutation, exactly as each `Option` closure does:
`WithArgs` replaces, `WithEnv` appends, the rest overwrite their field. -/
def applyOpt (c : Config) : Opt → Config
  | .withArgs a => { c with args := a }
  | .withEnv e => { c with env := c.env ++ e }
  | .withDir d => { c with dir := d }
  | .withStdout w => { c with stdout := w }
  | .withStderr w => { c with stderr := w }
  | .withCredential u g => { c with credential := some (u, g) }
  | .withMaxOutput n => { c with maxOutput := n }

/-- The config `Run` builds before applying options: discard writers and
the 10 KiB default capture limit. -/
def defaultConfig (cmd : String) : Config :=
  { cmd := cmd, args := [], env := [], dir := "", stdout := 0, stderr := 0,
    credential := none, maxOutput := 1024 * 10 }

/-- Embeds `Result` from `src/executor/executor.go`. -/
structure Result where
  Stdout : List Nat
  Stderr : List Nat
  ExitCode : Int
  Err : Option GoError
  Duration : Int
  StdoutTruncated : Bool
  StderrTruncated : Bool

/-- Embeds the Unix `runCommand` from `src/executor_unix.go`.  On start
failure it returns the start-error result.  Otherwise the two capture
buffers (both created with `cfg.maxOutput`) absorb the stream chunks;
`waitErr` is the wait outcome's error, wrapped in the cancellation class
when the context's arm won the select; the exit code comes from
`ProcessState.ExitCode()` when the state is available, else from the
`*exec.ExitError` type assertion on `waitErr` (`Exited` → status,
`Signaled` → 128 + signal), else stays `-1`. -/
def runCommand (cfg : Config) (env : ExecEnv) : Result :=
  match env.startFails with
  | some msg =>
      { Stdout := [], Stderr := [], ExitCode := -1,
        Err := some (.startErr msg), Duration := 0,
        StdoutTruncated := false, StderrTruncated := false }
  | none =>
      let stdoutBuf := writeAll (newLimitedBuffer cfg.maxOutput) env.stdoutData
      let stderrBuf := writeAll (newLimitedBuffer cfg.maxOutput) env.stderrData
      let waitErr : Option GoError :=
        match env.race with
        | .ctxFirst => some (.contextDone env.wait.err)
        | .doneFirst => env.wait.err
      let exitCode : Int :=
        match env.wait.state with
        | some ws => processStateExitCode ws
        | none =>
            match waitErr with
            | some (.exitError (.exited c)) => c
            | some (.exitError (.signaled s)) => 128 + s
            | _ => -1
      { Stdout := stdoutBuf.buf, Stderr := stderrBuf.buf,
        ExitCode := exitCode, Err := waitErr, Duration := env.elapsed,
        StdoutTruncated := stdoutBuf.truncated,
        StderrTruncated := stderrBuf.truncated }

/-- Embeds `Run` from `src/executor/executor.go`, instrumented with a
boolean recording whether control reached `runCommand` (i.e. whether a
process spawn was attempted): the empty-command guard returns before
building the config or applying any option. -/
def RunT (cmd : String) (opts : List Opt) (env : ExecEnv) : Result × Bool :=
  if cmd = "" then
    ({ Stdout := [], Stderr := [], ExitCode := -1,
       Err := some .emptyCommand, Duration := 0,
       StdoutTruncated := false, StderrTruncated := false }, false)
  else
    (runCommand (opts.foldl applyOpt (defaultConfig cmd)) env, true)

/-- `Run` proper: the result the caller sees. -/
def Run (cmd : String) (opts : List Opt) (env : ExecEnv) : Result :=
  (RunT cmd opts env).1

/-- The internal invariant the sink maintains: `written` mirrors the
stored length exactly (every branch adds the same count to both), and the
stored length never exceeds a positive capacity. -/
def sinkInv (b : limitedBuffer) : Prop :=
  b.written = (b.buf.length : Int) ∧ (0 < b.limit → (b.buf.length : Int) ≤ b.limit)

/-- The canonical state of a capacity-`N` sink after it has absorbed the
byte stream `s` delivered in nonempty chunks: everything stored when
unbounded, otherwise the first `N` bytes stored, `written` saturated at
`N`, and truncation recorded exactly when the stream overran. -/
def absorbed (N : Int) (s : List Nat) : limitedBuffer :=
  if N ≤ 0 then
    { buf := s, limit := N, written := s.length, truncated := false }
  else
    { buf := s.take N.toNat, limit := N, written := min (s.length : Int) N,
      truncated := decide (N < (s.length : Int)) }

/-! ### Helper lemmas about the bounded sink -/

theorem sinkInv_write (b : limitedBuffer) (p : List Nat) (h : sinkInv b) :
    sinkInv (b.Write p).1 := by
  obtain ⟨hw, hl⟩ := h
  unfold sinkInv limitedBuffer.Write
  split_ifs with h0 h1 h2 <;> dsimp only
  · refine ⟨?_, fun hpos => absurd hpos (by omega)⟩
    simp only [List.length_append]
    push_cast
    omega
  · exact ⟨hw, hl⟩
  · constructor
    · simp only [List.length_append, List.length_take]
      push_cast
      omega
    · intro hpos
      simp only [List.length_append, List.length_take]
      push_cast
      omega
  · constructor
    · simp only [List.length_append]
      push_cast
      omega
    · intro hpos
      simp only [List.length_append]
      push_cast
      omega

theorem sinkInv_writeAll (chunks : List (List Nat)) (b : limitedBuffer)
    (h : sinkInv b) : sinkInv (writeAll b chunks) := by
  induction chunks generalizing b with
  | nil => exact h
  | cons c cs ih => exact ih _ (sinkInv_write b c h)

theorem sinkInv_fresh (limit : Int) : sinkInv (newLimitedBuffer limit) := by
  refine ⟨rfl, fun h => ?_⟩
  unfold newLimitedBuffer at h ⊢
  dsimp only at h ⊢
  simp only [List.length_nil, Nat.cast_zero]
  omega

theorem truncated_mono_write (b : limitedBuffer) (p : List Nat)
    (h : b.truncated = true) : ((b.Write p).1).truncated = true := by
  unfold limitedBuffer.Write
  split_ifs <;> simp [h]

theorem limit_write (b : limitedBuffer) (p : List Nat) : (b.Write p).1.limit = b.limit := by
  unfold limitedBuffer.Write
  split_ifs <;> rfl

theorem limit_writeAll (b : limitedBuffer) (chunks : List (List Nat)) :
    (writeAll b chunks).limit = b.limit := by
  induction chunks generalizing b with
  | nil => rfl
  | cons c cs ih => rw [writeAll, List.foldl_cons, ← writeAll, ih, limit_write]

theorem truncated_mono_writeAll (b : limitedBuffer) (chunks : List (List Nat))
    (h : b.truncated = true) : (writeAll b chunks).truncated = true := by
  induction chunks generalizing b with
  | nil => exact h
  | cons c cs ih => exact ih _ (truncated_mono_write b c h)

theorem absorbed_nil (N : Int) : absorbed N [] = newLimitedBuffer N := by
  unfold absorbed newLimitedBuffer
  split_ifs with h
  · rfl
  · simp only [List.take_nil, List.length_nil, Nat.cast_zero, limitedBuffer.mk.injEq,
      true_and]
    constructor
    · omega
    · simp only [decide_eq_false_iff_not, not_lt]
      omega

theorem absorbed_write (N : Int) (s p : List Nat) (hp : p ≠ []) :
    ((absorbed N s).Write p).1 = absorbed N (s ++ p) := by
  have hplen : 0 < p.length := List.length_pos.mpr hp
  unfold absorbed limitedBuffer.Write
  split_ifs with hN h1 h2 <;> dsimp only at *
  · -- unbounded: everything is appended, no truncation
    simp only [limitedBuffer.mk.injEq, List.length_append, true_and, and_true]
    push_cast
    omega
  · -- remaining ≤ 0: the sink is already full, nothing stored, flag set
    have hfull : (N : Int) ≤ (s.length : Int) := by omega
    simp only [limitedBuffer.mk.injEq, List.length_append, true_and]
    refine ⟨?_, ?_, ?_⟩
    · rw [List.take_append_eq_append_take]
      have h0 : N.toNat - s.length = 0 := by omega
      rw [h0]
      simp
    · push_cast
      omega
    · symm
      simp only [decide_eq_true_eq]
      push_cast
      omega
  · -- overflow: only the prefix that fits is stored, flag set
    simp only [limitedBuffer.mk.injEq, List.length_append, List.length_take, true_and]
    refine ⟨?_, ?_, ?_⟩
    · rw [List.take_append_eq_append_take, List.take_of_length_le (l := s) (by omega)]
      congr 2
      omega
    · omega
    · symm
      simp only [decide_eq_true_eq]
      push_cast at h2 ⊢
      omega
  · -- the chunk fits entirely
    simp only [limitedBuffer.mk.injEq, List.length_append, true_and]
    refine ⟨?_, ?_, ?_⟩
    · rw [List.take_append_eq_append_take,
        List.take_of_length_le (l := s) (by omega),
        List.take_of_length_le (l := p) (by omega)]
    · push_cast
      omega
    · simp only [decide_eq_decide]
      omega

theorem writeAll_absorbed (N : Int) (chunks : List (List Nat)) (s : List Nat)
    (h : ∀ c ∈ chunks, c ≠ []) :
    writeAll (absorbed N s) chunks = absorbed N (s ++ chunks.flatten) := by
  induction chunks generalizing s with
  | nil => simp [writeAll]
  | cons c cs ih =>
      have hc : c ≠ [] := h c (List.mem_cons_self c cs)
      show writeAll ((absorbed N s).Write c).1 cs = _
      rw [absorbed_write N s c hc, ih (s ++ c) (fun d hd => h d (List.mem_cons_of_mem c hd))]
      simp [List.flatten_cons, List.append_assoc]

theorem write_nil_fresh (N : Int) : ((newLimitedBuffer N).Write []).1 = newLimitedBuffer N := by
  unfold newLimitedBuffer limitedBuffer.Write
  split_ifs <;> simp_all <;> omega

/-! ### Claim theorems: the bounded capture sink -/

/-- C4 counterexample: a fresh sink of capacity 5 receiving a 10-byte
chunk stores the 5-byte prefix and sets the flag, but `written` advances
only by the stored prefix, to 5 — not by the full incoming length 10 as
the claim asserts (`b.written += int64(n)` adds the `bytes.Buffer` count
for `p[:remaining]`, not `len(p)`). -/
theorem C4_full_length_not_counted :
    ((newLimitedBuffer 5).Write [0, 1, 2, 3, 4, 5, 6, 7, 8, 9]).1.buf = [0, 1, 2, 3, 4] ∧
    ((newLimitedBuffer 5).Write [0, 1, 2, 3, 4, 5, 6, 7, 8, 9]).1.truncated = true ∧
    ((newLimitedBuffer 5).Write [0, 1, 2, 3, 4, 5, 6, 7, 8, 9]).1.written = 5 ∧
    ((newLimitedBuffer 5).Write [0, 1, 2, 3, 4, 5, 6, 7, 8, 9]).1.written ≠ 10 := by
  refine ⟨?_, ?_, ?_, ?_⟩ <;> decide

/-- C4 amended: when a chunk exceeds the remaining room of a sink with
positive capacity and positive room, only the prefix that fits is
stored, the truncated flag is set, and only the stored prefix length is
added to `written`, which lands exactly on the capacity — so subsequent
remaining-room computations are non-positive (in fact zero). -/
theorem C4_overflow_write (b : limitedBuffer) (p : List Nat)
    (hcap : 0 < b.limit) (hroom : 0 < b.limit - b.written)
    (hover : (p.length : Int) > b.limit - b.written) :
    (b.Write p).1.buf = b.buf ++ p.take (b.limit - b.written).toNat ∧
    (b.Write p).1.truncated = true ∧
    (b.Write p).1.written = b.limit ∧
    (b.Write p).1.limit - (b.Write p).1.written ≤ 0 := by
  unfold limitedBuffer.Write
  rw [if_neg (by omega), if_neg (by omega), if_pos hover]
  dsimp only
  refine ⟨rfl, rfl, ?_, ?_⟩ <;> simp only [List.length_take] <;> omega

theorem C4_overflow_write_witness :
    (0 : Int) < (newLimitedBuffer 5).limit ∧
    (0 : Int) < (newLimitedBuffer 5).limit - (newLimitedBuffer 5).written ∧
    (([0, 1, 2, 3, 4, 5, 6, 7, 8, 9] : List Nat).length : Int) >
      (newLimitedBuffer 5).limit - (newLimitedBuffer 5).written ∧
    ((newLimitedBuffer 5).Write [0, 1, 2, 3, 4, 5, 6, 7, 8, 9]).1.written = (newLimitedBuffer 5).limit :=
  ⟨by decide, by decide, by decide,
    (C4_overflow_write (newLimitedBuffer 5) [0, 1, 2, 3, 4, 5, 6, 7, 8, 9]
      (by decide) (by decide) (by decide)).2.2.1⟩

/-- C5: for any sequence of writes, a sink of positive capacity never
stores more than its capacity, and a truncated flag already set is never
reset by later writes. -/
theorem C5_sink_invariants :
    (∀ (limit : Int) (chunks : List (List Nat)), 0 < limit →
        ((writeAll (newLimitedBuffer limit) chunks).buf.length : Int) ≤ limit) ∧
    (∀ (b : limitedBuffer) (chunks : List (List Nat)), b.truncated = true →
        (writeAll b chunks).truncated = true) := by
  constructor
  · intro limit chunks h
    have hlim : (writeAll (newLimitedBuffer limit) chunks).limit = limit :=
      limit_writeAll (newLimitedBuffer limit) chunks
    exact le_of_le_of_eq
      ((sinkInv_writeAll chunks _ (sinkInv_fresh limit)).2 (by rw [hlim]; exact h)) hlim
  · intro b chunks h
    exact truncated_mono_writeAll b chunks h

theorem C5_sink_invariants_witness :
    ((0 : Int) < 5 ∧
      ((writeAll (newLimitedBuffer 5) [[1, 2, 3], [4, 5, 6, 7]]).buf.length : Int) ≤ 5) ∧
    ((limitedBuffer.mk [1] 1 1 true).truncated = true ∧
      (writeAll (limitedBuffer.mk [1] 1 1 true) [[2], []]).truncated = true) :=
  ⟨⟨by decide, C5_sink_invariants.1 5 [[1, 2, 3], [4, 5, 6, 7]] (by decide)⟩,
   ⟨rfl, C5_sink_invariants.2 (limitedBuffer.mk [1] 1 1 true) [[2], []] rfl⟩⟩

/-- C6: writing a byte stream to a fresh sink of any capacity as one
single chunk and writing it as any partition into (nonempty) chunks
produce the same final truncated flag and the same captured length. -/
theorem C6_single_vs_chunked (N : Int) (chunks : List (List Nat))
    (h : ∀ c ∈ chunks, c ≠ []) :
    (writeAll (newLimitedBuffer N) chunks).truncated
        = ((newLimitedBuffer N).Write chunks.flatten).1.truncated ∧
    (writeAll (newLimitedBuffer N) chunks).buf.length
        = ((newLimitedBuffer N).Write chunks.flatten).1.buf.length := by
  have key : writeAll (newLimitedBuffer N) chunks
      = ((newLimitedBuffer N).Write chunks.flatten).1 := by
    by_cases hj : chunks.flatten = []
    · have hc : chunks = [] := by
        cases chunks with
        | nil => rfl
        | cons c cs =>
            exfalso
            have hcne : c ≠ [] := h c (List.mem_cons_self c cs)
            have : c ++ cs.flatten = [] := by simpa [List.flatten_cons] using hj
            exact hcne (List.append_eq_nil.mp this).1
      subst hc
      exact (write_nil_fresh N).symm
    · rw [← absorbed_nil N, writeAll_absorbed N chunks [] h,
        absorbed_write N [] chunks.flatten hj]
  rw [key]
  exact ⟨rfl, rfl⟩

theorem C6_single_vs_chunked_witness :
    (∀ c ∈ [[1, 2], [3, 4]], c ≠ ([] : List Nat)) ∧
    ((writeAll (newLimitedBuffer 3) [[1, 2], [3, 4]]).truncated
        = ((newLimitedBuffer 3).Write ([[1, 2], [3, 4]] : List (List Nat)).flatten).1.truncated ∧
      (writeAll (newLimitedBuffer 3) [[1, 2], [3, 4]]).buf.length
        = ((newLimitedBuffer 3).Write ([[1, 2], [3, 4]] : List (List Nat)).flatten).1.buf.length) :=
  ⟨by decide, C6_single_vs_chunked 3 [[1, 2], [3, 4]] (by decide)⟩

/-- C9: once `written` has reached a positive capacity, any further
write — a zero-length one included — only sets the truncated flag; the
stored bytes, `written`, and the capacity are all left unchanged. -/
theorem C9_write_when_full (b : limitedBuffer) (p : List Nat)
    (hcap : 0 < b.limit) (hfull : b.limit ≤ b.written) :
    (b.Write p).1 = { b with truncated := true } := by
  unfold limitedBuffer.Write
  rw [if_neg (by omega), if_pos (by omega)]

theorem C9_write_when_full_witness :
    (0 : Int) < (limitedBuffer.mk [7, 8] 2 2 false).limit ∧
    (limitedBuffer.mk [7, 8] 2 2 false).limit ≤ (limitedBuffer.mk [7, 8] 2 2 false).written ∧
    ((limitedBuffer.mk [7, 8] 2 2 false).Write []).1 = limitedBuffer.mk [7, 8] 2 2 true :=
  ⟨by decide, by decide,
    C9_write_when_full (limitedBuffer.mk [7, 8] 2 2 false) [] (by decide) (by decide)⟩

/-! ### Helper lemmas about wait outcomes -/

theorem waitConsistent_exitError (ws : WaitStatus) (hne : ws ≠ .exited 0) :
    waitConsistent { state := some ws, err := some (.exitError ws) } := by
  refine ⟨?_, ?_, ?_, ?_⟩
  · intro h
    injection h with h'
    exact absurd h' hne
  · intro c hc h
    injection h with h'
    subst h'
    rfl
  · intro s h
    injection h with h'
    subst h'
    rfl
  · intro h
    injection h with h'
    subst h'
    rfl

theorem waitConsistent_exit_zero : waitConsistent { state := some (.exited 0), err := none } := by
  refine ⟨?_, ?_, ?_, ?_⟩
  · intro _
    rfl
  · intro c hc h
    injection h with h'
    injection h' with h''
    omega
  · intro s h
    injection h with h'
    exact WaitStatus.noConfusion h'
  · intro h
    injection h with h'
    exact WaitStatus.noConfusion h'

theorem waitConsistent_nostate (e : Option GoError) :
    waitConsistent { state := none, err := e } := by
  refine ⟨?_, ?_, ?_, ?_⟩
  · intro h
    exact Option.noConfusion h
  · intro c _ h
    exact Option.noConfusion h
  · intro s h
    exact Option.noConfusion h
  · intro h
    exact Option.noConfusion h

/-! ### Claim theorems: the runner and its lifecycle -/

/-- C7: an empty command yields the invalid-request error, the `-1`
sentinel, zero duration and empty captures, for every option list and
every environment oracle — and the `false` component records that
control never reaches `runCommand`, so no option is applied and no
process spawn is attempted. -/
theorem C7_empty_command (opts : List Opt) (env : ExecEnv) :
    RunT "" opts env =
      ({ Stdout := [], Stderr := [], ExitCode := -1, Err := some .emptyCommand,
         Duration := 0, StdoutTruncated := false, StderrTruncated := false }, false) := rfl

/-- C8: a process that runs to completion (start succeeded, the wait arm
won the select) and exits with status `K ≤ 255` yields exit code `K`,
and its error is classified neither as cancellation nor as start
failure. -/
theorem C8_clean_exit (cfg : Config) (env : ExecEnv) (K : Nat)
    (hs : env.startFails = none) (hr : env.race = .doneFirst)
    (hw : waitConsistent env.wait) (hK : K ≤ 255)
    (hstate : env.wait.state = some (.exited K)) :
    (runCommand cfg env).ExitCode = K ∧
    isCancellationClass (runCommand cfg env).Err = false ∧
    isStartFailureClass (runCommand cfg env).Err = false := by
  have herr : isCancellationClass env.wait.err = false ∧
      isStartFailureClass env.wait.err = false := by
    by_cases hK0 : K = 0
    · rw [hw.1 (by rw [hstate, hK0])]
      exact ⟨rfl, rfl⟩
    · rw [hw.2.1 K hK0 hstate]
      exact ⟨rfl, rfl⟩
  simp only [runCommand, hs, hr, hstate, processStateExitCode]
  exact ⟨trivial, herr.1, herr.2⟩

theorem C8_clean_exit_witness :
    ({ startFails := none, race := .doneFirst,
       wait := { state := some (.exited 1), err := some (.exitError (.exited 1)) },
       stdoutData := [], stderrData := [], elapsed := 3 } : ExecEnv).startFails = none ∧
    (runCommand (defaultConfig "false")
      { startFails := none, race := .doneFirst,
        wait := { state := some (.exited 1), err := some (.exitError (.exited 1)) },
        stdoutData := [], stderrData := [], elapsed := 3 }).ExitCode = 1 ∧
    isCancellationClass (runCommand (defaultConfig "false")
      { startFails := none, race := .doneFirst,
        wait := { state := some (.exited 1), err := some (.exitError (.exited 1)) },
        stdoutData := [], stderrData := [], elapsed := 3 }).Err = false :=
  ⟨rfl,
    (C8_clean_exit (defaultConfig "false") _ 1 rfl rfl
      (waitConsistent_exitError (.exited 1) (by decide)) (by omega) rfl).1,
    (C8_clean_exit (defaultConfig "false") _ 1 rfl rfl
      (waitConsistent_exitError (.exited 1) (by decide)) (by omega) rfl).2.1⟩

/-- C3 counterexample: a clean nonzero exit (status 1, no cancellation,
no start failure, wait outcome consistent with `Cmd.Wait`'s contract)
produces a non-nil error — the `*exec.ExitError` from the wait layer is
passed through into `Result.Err` — contradicting the claim that the
error field is nil on every cleanly exited process including nonzero
exits. -/
theorem C3_nonzero_exit_error_cex :
    waitConsistent { state := some (.exited 1), err := some (.exitError (.exited 1)) } ∧
    (runCommand (defaultConfig "false")
      { startFails := none, race := .doneFirst,
        wait := { state := some (.exited 1), err := some (.exitError (.exited 1)) },
        stdoutData := [], stderrData := [], elapsed := 3 }).ExitCode = 1 ∧
    (runCommand (defaultConfig "false")
      { startFails := none, race := .doneFirst,
        wait := { state := some (.exited 1), err := some (.exitError (.exited 1)) },
        stdoutData := [], stderrData := [], elapsed := 3 }).Err ≠ none := by
  refine ⟨waitConsistent_exitError (.exited 1) (by decide), rfl, ?_⟩
  intro h
  simp only [runCommand] at h
  cases h

/-- C3 amended: on clean completion the error field is nil exactly for a
zero exit status; a clean nonzero exit passes the wait layer's
`*exec.ExitError` (echoing the status) through into the error field —
it is not nil, though it is neither cancellation- nor
start-failure-classified. -/
theorem C3_clean_exit_error_field (cfg : Config) (env : ExecEnv)
    (hs : env.startFails = none) (hr : env.race = .doneFirst)
    (hw : waitConsistent env.wait) :
    (env.wait.state = some (.exited 0) → (runCommand cfg env).Err = none) ∧
    (∀ c, c ≠ 0 → env.wait.state = some (.exited c) →
      (runCommand cfg env).Err = some (.exitError (.exited c)) ∧
      isCancellationClass (runCommand cfg env).Err = false ∧
      isStartFailureClass (runCommand cfg env).Err = false) := by
  simp only [runCommand, hs, hr]
  refine ⟨fun h => hw.1 h, fun c hc h => ?_⟩
  rw [hw.2.1 c hc h]
  exact ⟨rfl, rfl, rfl⟩

theorem C3_clean_exit_error_field_witness :
    ({ startFails := none, race := .doneFirst,
       wait := { state := some (.exited 2), err := some (.exitError (.exited 2)) },
       stdoutData := [], stderrData := [], elapsed := 3 } : ExecEnv).race = .doneFirst ∧
    (runCommand (defaultConfig "false")
      { startFails := none, race := .doneFirst,
        wait := { state := some (.exited 2), err := some (.exitError (.exited 2)) },
        stdoutData := [], stderrData := [], elapsed := 3 }).Err
      = some (.exitError (.exited 2)) :=
  ⟨rfl,
    ((C3_clean_exit_error_field (defaultConfig "false") _ rfl rfl
      (waitConsistent_exitError (.exited 2) (by decide))).2 2 (by omega) rfl).1⟩

/-- C1 counterexample: the context arm wins the select (cancellation
fires while the wait is still pending), yet the wait resolution reports
a normal exit with status 0 — a consistent outcome when the process
exits just as the token fires, before the SIGKILL lands.  The exit code
is then read from `ProcessState.ExitCode()` and reported as 0, not as
the -1 sentinel the claim requires "regardless of what the wait
resolution reports".  The error is, as claimed, the cancellation wrap. -/
theorem C1_cancellation_exit_code_cex :
    waitConsistent { state := some (.exited 0), err := none } ∧
    (runCommand (defaultConfig "sleep")
      { startFails := none, race := .ctxFirst,
        wait := { state := some (.exited 0), err := none },
        stdoutData := [], stderrData := [], elapsed := 7 }).Err
      = some (.contextDone none) ∧
    (runCommand (defaultConfig "sleep")
      { startFails := none, race := .ctxFirst,
        wait := { state := some (.exited 0), err := none },
        stdoutData := [], stderrData := [], elapsed := 7 }).ExitCode = 0 ∧
    (runCommand (defaultConfig "sleep")
      { startFails := none, race := .ctxFirst,
        wait := { state := some (.exited 0), err := none },
        stdoutData := [], stderrData := [], elapsed := 7 }).ExitCode ≠ -1 :=
  ⟨waitConsistent_exit_zero, rfl, rfl, by decide⟩

/-- C1 amended: when the cancellation token wins the race, the result's
error is always the cancellation-class wrap of whatever the underlying
wait returned; the exit code, however, is `ProcessState.ExitCode()` of
the wait resolution — the -1 sentinel whenever the process did not exit
normally (signal-killed, undeterminable, or no state), but the real exit
code if the wait resolution reports a normal exit. -/
theorem C1_cancellation_result (cfg : Config) (env : ExecEnv)
    (hs : env.startFails = none) (hr : env.race = .ctxFirst) :
    (runCommand cfg env).Err = some (.contextDone env.wait.err) ∧
    isCancellationClass (runCommand cfg env).Err = true ∧
    (∀ s, env.wait.state = some (.signaled s) → (runCommand cfg env).ExitCode = -1) ∧
    (env.wait.state = some .other → (runCommand cfg env).ExitCode = -1) ∧
    (env.wait.state = none → (runCommand cfg env).ExitCode = -1) ∧
    (∀ c, env.wait.state = some (.exited c) → (runCommand cfg env).ExitCode = c) := by
  simp only [runCommand, hs, hr]
  refine ⟨by trivial, by trivial, ?_, ?_, ?_, ?_⟩
  · intro s h
    simp [h, processStateExitCode]
  · intro h
    simp [h, processStateExitCode]
  · intro h
    simp [h]
  · intro c h
    simp [h, processStateExitCode]

theorem C1_cancellation_result_witness :
    ({ startFails := none, race := .ctxFirst,
       wait := { state := some (.signaled 9), err := some (.exitError (.signaled 9)) },
       stdoutData := [], stderrData := [], elapsed := 7 } : ExecEnv).race = .ctxFirst ∧
    (runCommand (defaultConfig "sleep")
      { startFails := none, race := .ctxFirst,
        wait := { state := some (.signaled 9), err := some (.exitError (.signaled 9)) },
        stdoutData := [], stderrData := [], elapsed := 7 }).Err
      = some (.contextDone (some (.exitError (.signaled 9)))) ∧
    (runCommand (defaultConfig "sleep")
      { startFails := none, race := .ctxFirst,
        wait := { state := some (.signaled 9), err := some (.exitError (.signaled 9)) },
        stdoutData := [], stderrData := [], elapsed := 7 }).ExitCode = -1 :=
  ⟨rfl,
    (C1_cancellation_result (defaultConfig "sleep") _ rfl rfl).1,
    (C1_cancellation_result (defaultConfig "sleep") _ rfl rfl).2.2.1 9 rfl⟩

/-- C2 counterexample: a process whose termination status is observed as
signal-caused (SIGKILL, signal 9, a consistent wait outcome) gets exit
code -1 — `ProcessState.ExitCode()`'s signal sentinel — not 128 + 9 =
137 as the claim's shell convention requires.  (The 128 + signal
conversion in the source is reachable only when `ProcessState` is nil,
which cannot happen once a termination status was observed.) -/
theorem C2_signal_exit_code_cex :
    waitConsistent { state := some (.signaled 9), err := some (.exitError (.signaled 9)) } ∧
    (runCommand (defaultConfig "sleep")
      { startFails := none, race := .doneFirst,
        wait := { state := some (.signaled 9), err := some (.exitError (.signaled 9)) },
        stdoutData := [], stderrData := [], elapsed := 7 }).ExitCode = -1 ∧
    (runCommand (defaultConfig "sleep")
      { startFails := none, race := .doneFirst,
        wait := { state := some (.signaled 9), err := some (.exitError (.signaled 9)) },
        stdoutData := [], stderrData := [], elapsed := 7 }).ExitCode ≠ 128 + 9 :=
  ⟨waitConsistent_exitError (.signaled 9) (by decide), rfl, by decide⟩

/-- C2 amended: exit status resolution follows `runCommand`'s actual
branch order.  When a process state is available (always the case once a
termination status is observed): a normal exit reports its exit code,
and a signal-caused or undeterminable termination reports the -1
sentinel (`ProcessState.ExitCode()`).  The 128 + signal conversion
applies only in the fallback where no process state exists but the
unwrapped wait error is a `*exec.ExitError` carrying a status; with no
state and a cancellation-wrapped or other error, -1 is reported. -/
theorem C2_exit_status_resolution (cfg : Config) (env : ExecEnv)
    (hs : env.startFails = none) :
    (∀ c, env.wait.state = some (.exited c) → (runCommand cfg env).ExitCode = c) ∧
    (∀ s, env.wait.state = some (.signaled s) → (runCommand cfg env).ExitCode = -1) ∧
    (env.wait.state = some .other → (runCommand cfg env).ExitCode = -1) ∧
    (env.wait.state = none → env.race = .doneFirst →
      (∀ c, env.wait.err = some (.exitError (.exited c)) →
        (runCommand cfg env).ExitCode = c) ∧
      (∀ s, env.wait.err = some (.exitError (.signaled s)) →
        (runCommand cfg env).ExitCode = 128 + s)) ∧
    (env.wait.state = none → env.race = .ctxFirst →
      (runCommand cfg env).ExitCode = -1) := by
  simp only [runCommand, hs]
  refine ⟨?_, ?_, ?_, ?_, ?_⟩
  · intro c h
    simp [h, processStateExitCode]
  · intro s h
    simp [h, processStateExitCode]
  · intro h
    simp [h, processStateExitCode]
  · intro h hrace
    refine ⟨?_, ?_⟩
    · intro c herr
      simp [h, hrace, herr]
    · intro s herr
      simp [h, hrace, herr]
  · intro h hrace
    simp [h, hrace]

theorem C2_exit_status_resolution_witness :
    ({ startFails := none, race := .doneFirst,
       wait := { state := none, err := some (.exitError (.signaled 15)) },
       stdoutData := [], stderrData := [], elapsed := 7 } : ExecEnv).startFails = none ∧
    (runCommand (defaultConfig "sleep")
      { startFails := none, race := .doneFirst,
        wait := { state := none, err := some (.exitError (.signaled 15)) },
        stdoutData := [], stderrData := [], elapsed := 7 }).ExitCode = 128 + 15 :=
  ⟨rfl,
    ((C2_exit_status_resolution (defaultConfig "sleep") _ rfl).2.2.2.1 rfl rfl).2 15 rfl⟩

/-- C10: for every invocation that reaches the spawn, one single
capacity value — the configured `maxOutput` after all mutations are
applied to the default — is used to create both the stdout and the
stderr capture sink; each stream's capture behaves exactly like a fresh
sink of that one capacity fed that stream's own chunks, so the two
streams have independent budgets of the same size and no option list can
give them different capacities. -/
theorem C10_sinks_share_capacity (cmd : String) (opts : List Opt) (env : ExecEnv)
    (hcmd : cmd ≠ "") (hs : env.startFails = none) :
    ∃ L : Int, L = (opts.foldl applyOpt (defaultConfig cmd)).maxOutput ∧
      (Run cmd opts env).Stdout = (writeAll (newLimitedBuffer L) env.stdoutData).buf ∧
      (Run cmd opts env).StdoutTruncated
        = (writeAll (newLimitedBuffer L) env.stdoutData).truncated ∧
      (Run cmd opts env).Stderr = (writeAll (newLimitedBuffer L) env.stderrData).buf ∧
      (Run cmd opts env).StderrTruncated
        = (writeAll (newLimitedBuffer L) env.stderrData).truncated := by
  refine ⟨(opts.foldl applyOpt (defaultConfig cmd)).maxOutput, rfl, ?_, ?_, ?_, ?_⟩ <;>
    simp only [Run, RunT, if_neg hcmd, runCommand, hs]

theorem C10_sinks_share_capacity_witness :
    ("echo" ≠ "") ∧
    (∃ L : Int, L = ([Opt.withMaxOutput 10].foldl applyOpt (defaultConfig "echo")).maxOutput ∧
      (Run "echo" [Opt.withMaxOutput 10]
        { startFails := none, race := .doneFirst,
          wait := { state := some (.exited 0), err := none },
          stdoutData := [[1, 2, 3]], stderrData := [[4]], elapsed := 2 }).Stdout
        = (writeAll (newLimitedBuffer L) [[1, 2, 3]]).buf ∧
      (Run "echo" [Opt.withMaxOutput 10]
        { startFails := none, race := .doneFirst,
          wait := { state := some (.exited 0), err := none },
          stdoutData := [[1, 2, 3]], stderrData := [[4]], elapsed := 2 }).StdoutTruncated
        = (writeAll (newLimitedBuffer L) [[1, 2, 3]]).truncated ∧
      (Run "echo" [Opt.withMaxOutput 10]
        { startFails := none, race := .doneFirst,
          wait := { state := some (.exited 0), err := none },
          stdoutData := [[1, 2, 3]], stderrData := [[4]], elapsed := 2 }).Stderr
        = (writeAll (newLimitedBuffer L) [[4]]).buf ∧
      (Run "echo" [Opt.withMaxOutput 10]
        { startFails := none, race := .doneFirst,
          wait := { state := some (.exited 0), err := none },
          stdoutData := [[1, 2, 3]], stderrData := [[4]], elapsed := 2 }).StderrTruncated
        = (writeAll (newLimitedBuffer L) [[4]]).truncated) :=
  ⟨by decide,
    C10_sinks_share_capacity "echo" [Opt.withMaxOutput 10] _ (by decide) rfl⟩

end Executor
